import Mathlib

/-!
Shallow embedding of `src/examples/medical_follow_up/data/raw/generate_simulated_data.py`.

The script builds four tables (patients, glucometers, appointments, glycemia
readings) by chaining draws from a seeded `numpy` generator with `polars`
dataframe transformations.  The embedding models:

* calendar time as day numbers (days since 1926-01-01, the earliest birth
  year kept by the population filter) and timestamps as minutes since that
  epoch, with real proleptic-Gregorian month lengths so that the polars
  `dt.truncate("1mo")` / `interval="1mo"` arithmetic is faithful;
* every random draw of the script as an explicit input (a function from the
  position at which `numpy` would place the draw in its output array), so
  each pipeline stage is a pure function of its draw inputs;
* `polars` floats as rationals: the claims under study only involve clipping,
  rounding and comparisons, which are exact.
-/

namespace GenSim

/-- Gregorian leap-year rule, as used by `numpy`/`polars` datetime arithmetic. -/
def isLeap (y : Nat) : Bool := (y % 4 == 0 && y % 100 != 0) || (y % 400 == 0)

/-- Length of month `m` (1..12) of year `y`. -/
def monthLen (y m : Nat) : Nat :=
  if m = 2 then (if isLeap y then 29 else 28)
  else if m = 4 ∨ m = 6 ∨ m = 9 ∨ m = 11 then 30 else 31

/-- Months are indexed from 0 = January 1926 (epoch of the embedding). -/
def daysInMonthIdx (mi : Nat) : Nat := monthLen (1926 + mi / 12) (mi % 12 + 1)

/-- Day number (days since 1926-01-01) of the first day of month index `mi`.
This is the value `polars` `dt.truncate("1mo")` produces for any date in
that month. -/
def monthStart : Nat → Nat
  | 0 => 0
  | mi + 1 => monthStart mi + daysInMonthIdx mi

/-- Walk month starts upward; `acc` is `monthStart m`.  Returns the month
index whose span contains day `d` (the `dt.truncate("1mo")` month).  Fuel
`d + 1` is always enough because every month has at least 28 days. -/
def monthOfAux : Nat → Nat → Nat → Nat → Nat
  | 0, m, _, _ => m
  | fuel + 1, m, acc, d =>
    if d < acc + daysInMonthIdx m then m
    else monthOfAux fuel (m + 1) (acc + daysInMonthIdx m) d

/-- Month index containing day number `d`: the embedding of
`dt.truncate("1mo")` (combined with `monthStart` to get back a day). -/
def monthOf (d : Nat) : Nat := monthOfAux (d + 1) 0 0 d

/-- Day number of 2015-01-01, start of the enrollment campaign
(`random_dates(start=date(2015, 1, 1), ...)`). -/
def D2015 : Nat := monthStart ((2015 - 1926) * 12)

/-- Day number of 2020-01-01, last possible campaign start date. -/
def D2020 : Nat := monthStart ((2020 - 1926) * 12)

/-- Day number of 2020-12-31, the fixed campaign end. -/
def D20201231 : Nat := monthStart ((2021 - 1926) * 12) - 1

-- np.clip
/-- `np.clip(x, lo, hi)` on exact rationals. -/
def clipQ (lo hi x : ℚ) : ℚ := max lo (min x hi)

/-- Truncation toward zero: the semantics of `numpy`/`polars` float → Int64
casts (`Series.cast(pl.Int64)`, `.cast(Int64)` on the jitter draws).  On a
rational in lowest terms, truncating division of numerator by denominator
is exactly truncation toward zero of the value. -/
def truncQ (x : ℚ) : Int := x.num.tdiv x.den

/-- Rounding to an integer, halves away from zero (`Series.round(0)`).
The claims under study never hit a tie, and any tie-breaking rule stays
inside integer clip bounds, so the half-rule is not load-bearing. -/
def roundQ0 (x : ℚ) : ℚ :=
  if 0 ≤ x then (Int.floor (x + 1 / 2) : ℚ) else (-(Int.floor (-x + 1 / 2)) : ℚ)

/-- Rounding to one decimal (`Series.round(1)`), halves away from zero. -/
def round1 (x : ℚ) : ℚ := roundQ0 (x * 10) / 10

/-!  ## Population Sampler (script lines 44-69) -/

/-- One row of the reference population CSV (`source.csv`):
`periode` (birth year), `prenom` (name), `sexe` (1/2), `valeur` (weight). -/
structure RefRow where
  periode : Nat
  prenom : String
  sexe : Nat
  valeur : ℚ
deriving DecidableEq, Inhabited

/-- The accented characters rejected by the name filter (line 48). -/
def accentChars : List Char :=
  ['À', 'Â', 'Ä', 'à', 'â', 'ä', 'Ç', 'ç', 'É', 'È', 'Ê', 'Ë', 'é', 'è',
   'ê', 'ë', 'Î', 'Ï', 'î', 'ï', 'Ô', 'Ö', 'ô', 'ö', 'Ù', 'Û', 'Ü', 'ù', 'û', 'ü']

/-- The three `.filter` calls on the raw reference table (lines 46-48). -/
def filteredPop (ref : List RefRow) : List RefRow :=
  ref.filter fun r =>
    decide (1926 ≤ r.periode) && decide (r.periode ≤ 1997)
      && !(r.prenom.toList.any (accentChars.contains ·))

/-- A row of the emitted patients table (after the rename/drop of lines 64-69).
`birthdate` is a day number since 1926-01-01. -/
structure Patient where
  pid : Nat
  name : String
  sex : Nat
  birthdate : Nat
deriving DecidableEq, Inhabited

/-- Draws consumed by the patient stage: `idx j` is `rng.choice`'s j-th
sampled row index (line 55), `birthSeconds j` the j-th draw of
`rng.integers(0, 365 * 24 * 3600)` (line 59). -/
structure PatientDraws where
  idx : Nat → Nat
  birthSeconds : Nat → Nat

/-- The patients table: `patients[idx]` (line 57), birthdate synthesis
(lines 59-62: Jan 1 of `periode` plus a seconds offset, truncated to a day),
and `with_row_index(name="patient_id")` (line 64), which numbers rows — that
is, sampling draws — from 0. -/
def patientsTable (N : Nat) (ref : List RefRow) (pd : PatientDraws) : List Patient :=
  (List.range N).map fun j =>
    let r := (filteredPop ref).getD (pd.idx j) default
    { pid := j
      name := r.prenom
      sex := r.sexe
      birthdate := monthStart ((r.periode - 1926) * 12) + pd.birthSeconds j / 86400 }

/-!  ## Device Catalog (script lines 75-85) -/

/-- One glucometer of the static catalog; `cls` models the `class` column
(`class` is reserved in Lean). -/
structure Glucometer where
  gm_id : Nat
  model_name : String
  manufacturer : String
  year : Nat
  cls : String
deriving DecidableEq, Inhabited

/-- The static device table (lines 75-85). -/
def glucometers : List Glucometer :=
  [⟨1, "Contour Plus One", "Ascensia", 2016, "Bluetooth"⟩,
   ⟨2, "Accu-Chek Guide", "Roche", 2017, "Bluetooth"⟩,
   ⟨3, "FreeStyle Lite", "Abbott", 2015, "Optical"⟩,
   ⟨4, "OneTouch Verio Flex", "LifeScan", 2016, "Bluetooth"⟩,
   ⟨5, "GlucoMen Areo", "A. Minarine", 2018, "NFC"⟩]

/-- `gm.get_column("gm_id")` (line 128). -/
def gm_ids : List Nat := glucometers.map (·.gm_id)

/-!  ## Appointment Scheduler and Value Simulator (script lines 94-240) -/

/-- Baseline height before the Int64 cast: the sex-conditioned normal draw
(lines 95-99) clipped to the sex-conditioned range (line 101).  The draw
itself is an input. -/
def heightF (sex : Nat) (draw : ℚ) : ℚ :=
  if sex = 1 then clipQ 150 200 draw else clipQ 145 185 draw

/-- Sex-conditioned weight clip bounds (line 118). -/
def weightClip (sex : Nat) (w : ℚ) : ℚ :=
  if sex = 1 then clipQ 50 160 w else clipQ 40 140 w

/-- Baseline weight `weight_mean` (lines 109-123): `bmi * (height/100)**2`
with the float (unclipped-to-int) height, clipped and rounded to 1 decimal. -/
def weightMean (sex : Nat) (bmiDraw hF : ℚ) : ℚ :=
  round1 (weightClip sex (bmiDraw * (hF / 100) ^ 2))

/-- `hour_slots = range(9*4, 18*4)` (line 173): quarter-hour slot numbers. -/
def hour_slots : List Nat := List.range' (9 * 4) (18 * 4 - 9 * 4)

/-- All draws consumed while building the appointments table.  Per-patient
draws (`heightDraw`, `bmiDraw`, `gmDraw`, `startOff`, `endOff`) are indexed
by the patient's row position j in the patients frame, because the numpy
arrays of lines 95-148 have `size=N` and attach positionally before the
date explode.  Per-appointment draws (`dayDelta`, `slot`, `weightDelta`,
`glyDraw`, `bpSysDraw`, `bpDiaDraw`) are indexed by the row position of the
exploded appointments frame (arrays of `size=len(appointments)`,
lines 164-205). -/
structure ApptDraws where
  heightDraw : Nat → ℚ
  bmiDraw : Nat → ℚ
  gmDraw : Nat → Nat
  startOff : Nat → Nat
  endOff : Nat → Nat
  dayDelta : Nat → Nat
  slot : Nat → Nat
  weightDelta : Nat → ℚ
  glyDraw : Nat → ℚ
  bpSysDraw : Nat → ℚ
  bpDiaDraw : Nat → ℚ

/-- `random_dates(date(2015,1,1), date(2020,1,1), N, SEED)` (lines 139-144):
start of patient j's enrollment window, as a day number. -/
def startDay (d : ApptDraws) (j : Nat) : Nat := D2015 + d.startOff j

/-- `random_dates_from_starts(start_dates + 32 days, date(2020,12,31), SEED)`
(lines 145-149): end of patient j's enrollment window. -/
def endDay (d : ApptDraws) (j : Nat) : Nat := startDay d j + 32 + d.endOff j

/-- `pl.date_ranges(start, end, interval="1mo")` where both ends are
month-truncated (lines 153-158), as a list of month indices: every month
from `a` to `b` inclusive, empty when `a > b`. -/
def monthRangeIdx (a b : Nat) : List Nat :=
  if a ≤ b then List.range' a (b + 1 - a) else []

/-- The month indices of patient j's appointment candidates. -/
def apptMonths (d : ApptDraws) (j : Nat) : List Nat :=
  monthRangeIdx (monthOf (startDay d j)) (monthOf (endDay d j))

/-- The `.explode('date')` order (line 160): for each patient row j in
order, one `(j, month)` pair per candidate month. -/
def apptKeys (N : Nat) (d : ApptDraws) : List (Nat × Nat) :=
  (List.range N).flatMap fun j => (apptMonths d j).map fun m => (j, m)

/-- A row of the appointments frame just before the final formatting
(the columns selected at lines 230-239, plus `sex` which is only dropped
at line 222 and is needed to express sex-conditioned claims). -/
structure ApptRow where
  pid : Nat
  sex : Nat
  date : Nat
  height : Int
  weight : ℚ
  gmId : Nat
  glycemia : ℚ
  bpSys : ℚ
  bpDia : ℚ
deriving DecidableEq, Inhabited

/-- The appointment row at exploded position `i` for key `(j, m)`:
`date` (in minutes since epoch) is the month start plus the 0-5 day delta
(line 164-170) plus the 15-minute slot offset (lines 172-181); values are
the clipped/rounded draws of lines 94-214. -/
def mkApptRow (pats : List Patient) (d : ApptDraws) (i : Nat) (jm : Nat × Nat) : ApptRow :=
  let j := jm.1
  let m := jm.2
  let p := pats.getD j default
  let hF := heightF p.sex (d.heightDraw j)
  { pid := p.pid
    sex := p.sex
    date := (monthStart m + d.dayDelta i) * 1440 + d.slot i * 15
    height := truncQ hF
    weight := round1 (weightMean p.sex (d.bmiDraw j) hF + d.weightDelta i)
    gmId := d.gmDraw j
    glycemia := clipQ 60 250 (d.glyDraw i)
    bpSys := roundQ0 (clipQ 90 200 (d.bpSysDraw i))
    bpDia := roundQ0 (clipQ 50 130 (d.bpDiaDraw i)) }

/-- Builds the exploded rows, keeping the global row position `i` that the
positional numpy draws of lines 164-214 refer to. -/
def mkApptRows (pats : List Patient) (d : ApptDraws) : Nat → List (Nat × Nat) → List ApptRow
  | _, [] => []
  | i, jm :: rest => mkApptRow pats d i jm :: mkApptRows pats d (i + 1) rest

/-- The appointments frame before thinning (everything up to line 214). -/
def appointmentsPre (pats : List Patient) (d : ApptDraws) : List ApptRow :=
  mkApptRows pats d 0 (apptKeys pats.length d)

/-- Number of rows kept by `DataFrame.sample(fraction=0.9)`: polars keeps
`0.9 * height` rows truncated to an integer, sampling without replacement
(the exact f64 product may differ from `9*n/10` by one for some heights;
no claim depends on which whole number it is, only on it being a fixed
function of `n`). -/
def thinnedCount (n : Nat) : Nat := 9 * n / 10

/-- `DataFrame.sample(fraction=0.9)` (line 221): the random input `sel` is
the shuffled row order its (unseeded) RNG produces; the first
`thinnedCount n` positions of that order are the retained rows. -/
def sampleFrac09 (sel : List Nat) (rows : List ApptRow) : List ApptRow :=
  (sel.take (thinnedCount rows.length)).filterMap fun i => rows[i]?

/-- The emitted appointments table (lines 219-240). -/
def appointmentsTable (pats : List Patient) (d : ApptDraws) (sel : List Nat) : List ApptRow :=
  sampleFrac09 sel (appointmentsPre pats d)

/-!  ## Glycemia Stream Simulator (script lines 246-308) -/

/-- `pl.col('date').min()` over a group (line 250).  Only ever applied to
nonempty groups (`group_by` only forms groups for present keys); the `[]`
value is never reached by the pipeline. -/
def minD : List Nat → Nat
  | [] => 0
  | a :: rest => rest.foldl min a

/-- `pl.col('date').max()` over a group (line 251). -/
def maxD : List Nat → Nat
  | [] => 0
  | a :: rest => rest.foldl max a

/-- `pl.date_ranges(start, end, interval='1d')` on minute timestamps
(lines 253-260): `a, a+1440, ...` up to `b` inclusive, empty when `a > b`. -/
def dayRange (a b : Nat) : List Nat :=
  if a ≤ b then (List.range ((b - a) / 1440 + 1)).map fun k => a + 1440 * k else []

/-- The rows of one patient of the (thinned) appointments frame:
`group_by('patient_id')` (line 248). -/
def groupOf (rows : List ApptRow) (p : Nat) : List ApptRow :=
  rows.filter fun r => r.pid == p

/-- Nominal reading timestamps of one group: the daily range over
`[min+24h, max-24h]` (lines 253-261), each day truncated to its calendar
day by `strftime("%Y-%m-%d")` (line 268) and re-assembled at 08:00, 14:00
and 20:00 (lines 263-274). -/
def streamSlots (g : List ApptRow) : List Nat :=
  (dayRange (minD (g.map (·.date)) + 1440) (maxD (g.map (·.date)) - 1440)).flatMap
    fun t => [480, 840, 1200].map fun h => t / 1440 * 1440 + h

/-- The patients that have at least one retained appointment row, in
ascending `patient_id` order.  `polars` leaves the group order of
`group_by` unspecified; every claim under study is per-row, so the order
is not load-bearing (it would be for the byte-determinism claim, where the
unseeded `.sample` already decides the matter). -/
def groupPids (rows : List ApptRow) (N : Nat) : List Nat :=
  (List.range N).filter fun p => rows.any fun r => r.pid == p

/-- `(p, t)` for each group `p` and nominal slot `t`, in frame order. -/
def streamKeys (rows : List ApptRow) (N : Nat) : List (Nat × Nat) :=
  (groupPids rows N).flatMap fun p => (streamSlots (groupOf rows p)).map fun t => (p, t)

/-- The device joined onto the stream (lines 289-297):
`pl.col('gm_id').unique().first()` per patient.  `unique()`'s order is
unspecified by polars, but in every table this script builds all gm ids of
a group coincide (the draw of line 129 happens before the date explode), so
`first` is the head whatever the order. -/
def gmFirst (g : List ApptRow) : Nat := ((g.map (·.gmId)).headD 0)

/-- Draws consumed by the stream stage, indexed by the stream row position:
`jitter i` is the i-th `rng.normal(0, 5)` minute offset already cast to
`Int64` (truncation toward zero, lines 280-283), `glyDraw i` the i-th
`rng.normal(95, 15)` value draw (line 300). -/
structure StreamDraws where
  jitter : Nat → Int
  glyDraw : Nat → ℚ

/-- A row of the emitted glycemia table: `date, patient_id, gm_id, glycemia`.
`date` is an `Int` because the jitter can cross the epoch in principle. -/
structure GlyRow where
  pid : Nat
  date : Int
  gmId : Nat
  glycemia : ℚ
deriving DecidableEq, Inhabited

/-- The stream row at position `i` for key `(p, t)`: the nominal slot plus
the minute jitter (lines 277-288), the joined device (lines 289-297) and
the clipped value draw (lines 300-308). -/
def mkGlyRow (rows : List ApptRow) (sd : StreamDraws) (i : Nat) (pt : Nat × Nat) : GlyRow :=
  { pid := pt.1
    date := (pt.2 : Int) + sd.jitter i
    gmId := gmFirst (groupOf rows pt.1)
    glycemia := clipQ 60 250 (sd.glyDraw i) }

/-- Builds the stream rows, keeping the global row position for the
positional draws. -/
def mkGlyRows (rows : List ApptRow) (sd : StreamDraws) : Nat → List (Nat × Nat) → List GlyRow
  | _, [] => []
  | i, pt :: rest => mkGlyRow rows sd i pt :: mkGlyRows rows sd (i + 1) rest

/-- The emitted glycemia readings table, as a function of the (thinned)
appointments frame `rows` and the patient count `N`. -/
def glycemiaStream (rows : List ApptRow) (N : Nat) (sd : StreamDraws) : List GlyRow :=
  mkGlyRows rows sd 0 (streamKeys rows N)

/-!  ## Concrete run fixtures

Small concrete instantiations of the pipeline inputs, used by the witness
and counterexample theorems below.  `d1` uses a campaign start offset of 19
days, i.e. an enrollment starting 2015-01-20, and the minimal 32-day window;
heights/values use in-range draws. -/

/-- A one-row reference population (passes every filter). -/
def ref1 : List RefRow := [⟨1960, "Anna", 2, 1⟩]

/-- Patient-stage draws always picking row 0 with offset 0. -/
def pd1 : PatientDraws := ⟨fun _ => 0, fun _ => 0⟩

/-- A one-patient cohort. -/
def pats1 : List Patient := patientsTable 1 ref1 pd1

/-- Appointment-stage draws: enrollment 2015-01-20 .. 2015-02-21 (the
minimal window), all per-row perturbations at their smallest legal value,
all value draws at their means. -/
def d1 : ApptDraws :=
  { heightDraw := fun _ => mkRat 1709 10
    bmiDraw := fun _ => 25
    gmDraw := fun _ => 3
    startOff := fun _ => 19
    endOff := fun _ => 0
    dayDelta := fun _ => 0
    slot := fun _ => 36
    weightDelta := fun _ => 0
    glyDraw := fun _ => 95
    bpSysDraw := fun _ => 125
    bpDiaDraw := fun _ => 80 }

/-- One shuffled order the unseeded `.sample` RNG can produce. -/
def sel1 : List Nat := [0, 1]

/-- Stream-stage draws: zero jitter, mean value draws. -/
def sd0 : StreamDraws := ⟨fun _ => 0, fun _ => 95⟩

/-- A two-row reference population. -/
def ref2 : List RefRow := [⟨1960, "Anna", 2, 1⟩, ⟨1950, "Marc", 1, 1⟩]

/-- Patient-stage draws picking row j for patient j. -/
def pd2 : PatientDraws := ⟨fun j => j, fun _ => 0⟩

/-- A two-patient cohort. -/
def pats2 : List Patient := patientsTable 2 ref2 pd2

/-- Like `d1` but with a distinct device draw per draw position, so that a
per-appointment drawing discipline would give distinct ids. -/
def d2 : ApptDraws := { d1 with gmDraw := fun j => j + 1 }

/-- An identity shuffle of the four exploded rows of `pats2`/`d2`. -/
def sel2 : List Nat := [0, 1, 2, 3]

/-- A hand-written retained appointment row: 2015-01-20 17:00, in-range
values (day number 32526 = 2015-01-20). -/
def apptA : ApptRow :=
  { pid := 0, sex := 2, date := 32526 * 1440 + 1020, height := 170,
    weight := 70, gmId := 3, glycemia := 95, bpSys := 125, bpDia := 80 }

/-- The same patient three days later, same time of day. -/
def apptB : ApptRow := { apptA with date := (32526 + 3) * 1440 + 1020 }

/-- A thinned appointments frame with one patient and two retained visits. -/
def rowsC4 : List ApptRow := [apptA, apptB]

/-- Four distinct retained rows (patients 0..3, one visit each). -/
def rowsFour : List ApptRow := (List.range 4).map fun k => { apptA with pid := k }

/-- Ten rows: patient 0 owns positions 0-8, patient 1 owns position 9 only. -/
def rowsC7 : List ApptRow :=
  (List.range 9).map (fun _ => apptA) ++ [{ apptA with pid := 1 }]

/-- Modelled from the spec (for contrast with `sampleFrac09`, not from the
source): "each appointment row is independently retained with probability
0.9" — a Bernoulli coin per row position, keeping row `i` iff `coins i`. -/
def bernoulliThin (coins : Nat → Bool) (rows : List ApptRow) : List ApptRow :=
  ((List.range rows.length).filter coins).filterMap fun i => rows[i]?

/-!  ## Helper lemmas -/

theorem monthLen_pos (y m : Nat) : 0 < monthLen y m := by
  unfold monthLen; split <;> [split <;> simp; skip]
  split <;> simp

theorem monthStart_le_succ (m : Nat) : monthStart m ≤ monthStart (m + 1) := by
  simp only [monthStart]; omega

theorem monthStart_mono : Monotone monthStart :=
  monotone_nat_of_le_succ monthStart_le_succ

theorem clipQ_bounds (lo hi x : ℚ) (h : lo ≤ hi) :
    lo ≤ clipQ lo hi x ∧ clipQ lo hi x ≤ hi := by
  constructor
  · exact le_max_left _ _
  · exact max_le h (min_le_right _ _)

theorem roundQ0_bounds (lo hi : Int) (x : ℚ) (h0 : 0 ≤ x)
    (hlo : (lo : ℚ) ≤ x) (hhi : x ≤ (hi : ℚ)) :
    (lo : ℚ) ≤ roundQ0 x ∧ roundQ0 x ≤ (hi : ℚ) := by
  rw [roundQ0, if_pos h0]
  constructor
  · have : (lo : ℚ) ≤ x + 1 / 2 := by linarith
    exact_mod_cast Int.le_floor.mpr this
  · have h2 : Int.floor (x + 1 / 2) ≤ hi := by
      rw [Int.floor_le_iff]
      linarith
    exact_mod_cast h2

theorem patientsTable_length (N : Nat) (ref : List RefRow) (pd : PatientDraws) :
    (patientsTable N ref pd).length = N := by
  simp [patientsTable]

theorem patientsTable_pids (N : Nat) (ref : List RefRow) (pd : PatientDraws) :
    (patientsTable N ref pd).map (·.pid) = List.range N := by
  simp [patientsTable, List.map_map, Function.comp_def]

theorem patientsTable_getD_pid (N : Nat) (ref : List RefRow) (pd : PatientDraws)
    (j : Nat) (hj : j < N) :
    ((patientsTable N ref pd).getD j default).pid = j := by
  rw [List.getD_eq_getElem?_getD]
  simp [patientsTable, hj]

theorem headD_mem {α : Type} [Inhabited α] (l : List α) (h : l.length ≠ 0) :
    l.headD default ∈ l := by
  cases l with
  | nil => simp at h
  | cons a t => simp

theorem getD_mem {α : Type} [Inhabited α] (l : List α) (i : Nat) (h : i < l.length) :
    l.getD i default ∈ l := by
  rw [List.getD_eq_getElem?_getD, List.getElem?_eq_getElem h]
  exact List.getElem_mem h

theorem heightF_ge (s : Nat) (q : ℚ) : 145 ≤ heightF s q := by
  rw [heightF]; split
  · linarith [(clipQ_bounds 150 200 q (by norm_num)).1]
  · exact (clipQ_bounds 145 185 q (by norm_num)).1

theorem truncQ_eq_floor_of_nonneg (x : ℚ) (h : 0 ≤ x) : truncQ x = Int.floor x := by
  rw [truncQ, Rat.floor_def, Int.tdiv_eq_ediv (Rat.num_nonneg.mpr h) (Int.natCast_nonneg _)]

theorem floor_bounds (lo hi : Int) (x : ℚ) (hlo : (lo : ℚ) ≤ x) (hhi : x ≤ (hi : ℚ)) :
    lo ≤ Int.floor x ∧ Int.floor x ≤ hi :=
  ⟨Int.le_floor.mpr hlo, by rw [Int.floor_le_iff]; linarith⟩

theorem mem_monthRangeIdx {a b m : Nat} (h : m ∈ monthRangeIdx a b) : a ≤ m ∧ m ≤ b := by
  rw [monthRangeIdx] at h
  split at h
  · rw [List.mem_range'_1] at h; omega
  · simp at h

theorem mem_mkApptRows {pats : List Patient} {d : ApptDraws} {r : ApptRow} :
    ∀ {i0 : Nat} {keys : List (Nat × Nat)}, r ∈ mkApptRows pats d i0 keys →
      ∃ i jm, jm ∈ keys ∧ r = mkApptRow pats d i jm
  | _, [], h => by simp [mkApptRows] at h
  | i0, jm :: rest, h => by
    rw [mkApptRows, List.mem_cons] at h
    rcases h with h | h
    · exact ⟨i0, jm, List.mem_cons_self _ _, h⟩
    · obtain ⟨i, jm', hmem, hr⟩ := mem_mkApptRows h
      exact ⟨i, jm', List.mem_cons_of_mem _ hmem, hr⟩

theorem mem_appointmentsPre {pats : List Patient} {d : ApptDraws} {r : ApptRow}
    (h : r ∈ appointmentsPre pats d) :
    ∃ i j m, j < pats.length ∧ m ∈ apptMonths d j ∧ r = mkApptRow pats d i (j, m) := by
  obtain ⟨i, jm, hmem, hr⟩ := mem_mkApptRows h
  rw [apptKeys, List.mem_flatMap] at hmem
  obtain ⟨j, hj, hjm⟩ := hmem
  rw [List.mem_map] at hjm
  obtain ⟨m, hm, hjm⟩ := hjm
  exact ⟨i, j, m, List.mem_range.mp hj, hm, hjm ▸ hr⟩

theorem mem_appointmentsTable {pats : List Patient} {d : ApptDraws} {sel : List Nat}
    {r : ApptRow} (h : r ∈ appointmentsTable pats d sel) : r ∈ appointmentsPre pats d := by
  rw [appointmentsTable, sampleFrac09] at h
  rw [List.mem_filterMap] at h
  obtain ⟨i, _, hi⟩ := h
  exact List.getElem?_mem hi

theorem filterMap_getElem_eq_map {rows : List ApptRow} :
    ∀ {l : List Nat}, (∀ i ∈ l, i < rows.length) →
      (l.filterMap fun i => rows[i]?) = l.map fun i => rows.getD i default
  | [], _ => rfl
  | i :: t, h => by
    have hi : i < rows.length := h i (List.mem_cons_self _ _)
    rw [List.filterMap_cons, List.map_cons, List.getElem?_eq_getElem hi,
      filterMap_getElem_eq_map (fun j hj => h j (List.mem_cons_of_mem _ hj))]
    rw [List.getD_eq_getElem?_getD, List.getElem?_eq_getElem hi]
    rfl

theorem map_getD_range {α : Type} [Inhabited α] (l : List α) :
    (List.range l.length).map (fun i => l.getD i default) = l := by
  apply List.ext_getElem
  · simp
  · intro i h1 h2
    simp [List.getD_eq_getElem?_getD, List.getElem?_eq_getElem h2]

theorem mem_dayRange {a b td : Nat} (h : td ∈ dayRange a b) : a ≤ td ∧ td ≤ b := by
  rw [dayRange] at h
  split at h
  · rw [List.mem_map] at h
    obtain ⟨k, hk, rfl⟩ := h
    rw [List.mem_range] at hk
    constructor <;> omega
  · simp at h

theorem mem_mkGlyRows {rows : List ApptRow} {sd : StreamDraws} {r : GlyRow} :
    ∀ {i0 : Nat} {keys : List (Nat × Nat)}, r ∈ mkGlyRows rows sd i0 keys →
      ∃ i pt, pt ∈ keys ∧ r = mkGlyRow rows sd i pt
  | _, [], h => by simp [mkGlyRows] at h
  | i0, pt :: rest, h => by
    rw [mkGlyRows, List.mem_cons] at h
    rcases h with h | h
    · exact ⟨i0, pt, List.mem_cons_self _ _, h⟩
    · obtain ⟨i, pt', hmem, hr⟩ := mem_mkGlyRows h
      exact ⟨i, pt', List.mem_cons_of_mem _ hmem, hr⟩

theorem mem_glycemiaStream {rows : List ApptRow} {N : Nat} {sd : StreamDraws} {r : GlyRow}
    (h : r ∈ glycemiaStream rows N sd) :
    ∃ i p t, t ∈ streamSlots (groupOf rows p) ∧ r = mkGlyRow rows sd i (p, t) := by
  obtain ⟨i, pt, hmem, hr⟩ := mem_mkGlyRows h
  rw [streamKeys, List.mem_flatMap] at hmem
  obtain ⟨p, _, hpt⟩ := hmem
  rw [List.mem_map] at hpt
  obtain ⟨t, ht, hpt⟩ := hpt
  exact ⟨i, p, t, ht, hpt ▸ hr⟩

theorem mem_streamSlots {g : List ApptRow} {t : Nat} (h : t ∈ streamSlots g) :
    ∃ td hh, td ∈ dayRange (minD (g.map (·.date)) + 1440) (maxD (g.map (·.date)) - 1440) ∧
      (hh = 480 ∨ hh = 840 ∨ hh = 1200) ∧ t = td / 1440 * 1440 + hh := by
  rw [streamSlots, List.mem_flatMap] at h
  obtain ⟨td, htd, ht⟩ := h
  rw [List.mem_map] at ht
  obtain ⟨hh, hhm, rfl⟩ := ht
  simp only [List.mem_cons, List.not_mem_nil, or_false] at hhm
  exact ⟨td, hh, htd, hhm, rfl⟩

/-!  ## Claims -/

set_option maxRecDepth 1000000

/-- C8: the patients table produced by the Population Sampler has exactly
`N` rows and its `patient_id` column is exactly `0, 1, ..., N-1` — unique,
dense in `[0, N)` and equal to the 0-based draw-order index. -/
theorem claim_C8_patient_ids_dense (N : Nat) (ref : List RefRow) (pd : PatientDraws) :
    (patientsTable N ref pd).length = N ∧
    (patientsTable N ref pd).map (·.pid) = List.range N ∧
    ((patientsTable N ref pd).map (·.pid)).Nodup :=
  ⟨patientsTable_length N ref pd, patientsTable_pids N ref pd,
   (patientsTable_pids N ref pd) ▸ List.nodup_range N⟩

/-- C2: in every emitted appointments row, glycemia lies in [60, 250],
systolic blood pressure in [90, 200] and diastolic in [50, 130]; in every
emitted glycemia-stream row, glycemia lies in [60, 250].  Holds for every
choice of draws because the values are `np.clip`-ed (and the blood
pressures then rounded within integer bounds). -/
theorem claim_C2_value_bounds (pats : List Patient) (d : ApptDraws) (sel : List Nat)
    (N : Nat) (sd : StreamDraws) :
    (∀ r ∈ appointmentsTable pats d sel,
       60 ≤ r.glycemia ∧ r.glycemia ≤ 250 ∧
       90 ≤ r.bpSys ∧ r.bpSys ≤ 200 ∧ 50 ≤ r.bpDia ∧ r.bpDia ≤ 130) ∧
    (∀ g ∈ glycemiaStream (appointmentsTable pats d sel) N sd,
       60 ≤ g.glycemia ∧ g.glycemia ≤ 250) := by
  constructor
  · intro r hr
    obtain ⟨i, j, m, _, _, hrow⟩ := mem_appointmentsPre (mem_appointmentsTable hr)
    subst hrow
    simp only [mkApptRow]
    refine ⟨(clipQ_bounds 60 250 _ (by norm_num)).1, (clipQ_bounds 60 250 _ (by norm_num)).2,
      ?_, ?_, ?_, ?_⟩
    · have := (roundQ0_bounds 90 200 (clipQ 90 200 (d.bpSysDraw i))
        (le_trans (by norm_num) (clipQ_bounds 90 200 _ (by norm_num)).1)
        (by exact_mod_cast (clipQ_bounds 90 200 _ (by norm_num)).1)
        (by exact_mod_cast (clipQ_bounds 90 200 _ (by norm_num)).2)).1
      exact_mod_cast this
    · have := (roundQ0_bounds 90 200 (clipQ 90 200 (d.bpSysDraw i))
        (le_trans (by norm_num) (clipQ_bounds 90 200 _ (by norm_num)).1)
        (by exact_mod_cast (clipQ_bounds 90 200 _ (by norm_num)).1)
        (by exact_mod_cast (clipQ_bounds 90 200 _ (by norm_num)).2)).2
      exact_mod_cast this
    · have := (roundQ0_bounds 50 130 (clipQ 50 130 (d.bpDiaDraw i))
        (le_trans (by norm_num) (clipQ_bounds 50 130 _ (by norm_num)).1)
        (by exact_mod_cast (clipQ_bounds 50 130 _ (by norm_num)).1)
        (by exact_mod_cast (clipQ_bounds 50 130 _ (by norm_num)).2)).1
      exact_mod_cast this
    · have := (roundQ0_bounds 50 130 (clipQ 50 130 (d.bpDiaDraw i))
        (le_trans (by norm_num) (clipQ_bounds 50 130 _ (by norm_num)).1)
        (by exact_mod_cast (clipQ_bounds 50 130 _ (by norm_num)).1)
        (by exact_mod_cast (clipQ_bounds 50 130 _ (by norm_num)).2)).2
      exact_mod_cast this
  · intro g hg
    obtain ⟨i, p, t, _, hrow⟩ := mem_glycemiaStream hg
    subst hrow
    simp only [mkGlyRow]
    exact ⟨(clipQ_bounds 60 250 _ (by norm_num)).1, (clipQ_bounds 60 250 _ (by norm_num)).2⟩

/-- C2 witness: the bounds at the concrete one-patient run. -/
theorem claim_C2_value_bounds_witness :
    60 ≤ ((appointmentsTable pats1 d1 sel1).headD default).glycemia ∧
    90 ≤ ((appointmentsTable pats1 d1 sel1).headD default).bpSys :=
  ⟨((claim_C2_value_bounds pats1 d1 sel1 1 sd0).1 _ (headD_mem _ (by decide))).1,
   ((claim_C2_value_bounds pats1 d1 sel1 1 sd0).1 _ (headD_mem _ (by decide))).2.2.1⟩

/-- C10 (implicit): every emitted appointment's time of day is one of the
15-minute grid slots from 09:00 (minute 540 of the day) to 17:45 (minute
1065) inclusive — in particular strictly before 18:00 — provided each slot
draw comes from `hour_slots` as `rng.choice(hour_slots)` guarantees. -/
theorem claim_C10_clinic_slots (pats : List Patient) (d : ApptDraws) (sel : List Nat)
    (hslot : ∀ i, d.slot i ∈ hour_slots) :
    ∀ r ∈ appointmentsTable pats d sel,
      540 ≤ r.date % 1440 ∧ r.date % 1440 ≤ 1065 ∧
      ∃ k, k < 36 ∧ r.date % 1440 = 540 + 15 * k := by
  intro r hr
  obtain ⟨i, j, m, _, _, hrow⟩ := mem_appointmentsPre (mem_appointmentsTable hr)
  subst hrow
  have hs := hslot i
  rw [hour_slots, List.mem_range'_1] at hs
  simp only [mkApptRow]
  refine ⟨?_, ?_, d.slot i - 36, ?_, ?_⟩ <;> omega

/-- C10 witness: the concrete one-patient run, whose single retained
appointment is at 09:00. -/
theorem claim_C10_clinic_slots_witness :
    540 ≤ ((appointmentsTable pats1 d1 sel1).headD default).date % 1440 :=
  (claim_C10_clinic_slots pats1 d1 sel1 (fun _ => show (36 : Nat) ∈ hour_slots by decide)
    _ (headD_mem _ (by decide))).1

/-- C9 (amended): the emitted height is the sex-clipped draw truncated to
an integer centimetre — truncation toward zero (equivalently the floor,
clipped heights being positive), not rounding to nearest — and it always
lies inside the sex-conditioned clip range. -/
theorem claim_C9_height_truncated (N : Nat) (ref : List RefRow) (pd : PatientDraws)
    (d : ApptDraws) (sel : List Nat) :
    ∀ r ∈ appointmentsTable (patientsTable N ref pd) d sel,
      r.height = Int.floor (heightF r.sex (d.heightDraw r.pid)) ∧
      (r.sex = 1 → 150 ≤ r.height ∧ r.height ≤ 200) ∧
      (r.sex ≠ 1 → 145 ≤ r.height ∧ r.height ≤ 185) := by
  intro r hr
  obtain ⟨i, j, m, hj, _, hrow⟩ := mem_appointmentsPre (mem_appointmentsTable hr)
  rw [patientsTable_length] at hj
  subst hrow
  simp only [mkApptRow]
  rw [patientsTable_getD_pid N ref pd j hj]
  set s := ((patientsTable N ref pd).getD j default).sex with hs
  have hfloor := truncQ_eq_floor_of_nonneg (heightF s (d.heightDraw j))
    (le_trans (by norm_num) (heightF_ge s (d.heightDraw j)))
  refine ⟨hfloor, fun h1 => ?_, fun h1 => ?_⟩
  · rw [hfloor, heightF, if_pos h1]
    have hb := clipQ_bounds 150 200 (d.heightDraw j) (by norm_num)
    exact floor_bounds 150 200 _ (by exact_mod_cast hb.1) (by exact_mod_cast hb.2)
  · rw [hfloor, heightF, if_neg h1]
    have hb := clipQ_bounds 145 185 (d.heightDraw j) (by norm_num)
    exact floor_bounds 145 185 _ (by exact_mod_cast hb.1) (by exact_mod_cast hb.2)

/-- C9 witness: the concrete one-patient run (sex 2, draw 170.9). -/
theorem claim_C9_height_truncated_witness :
    145 ≤ ((appointmentsTable pats1 d1 sel1).headD default).height :=
  ((claim_C9_height_truncated 1 ref1 pd1 d1 sel1 _ (headD_mem _ (by decide))).2.2
    (by decide)).1

/-- C9 counterexample: a clipped draw of 170.9 yields height 170, not the
171 the claim's rounding-to-nearest reading predicts — both for the bare
clip/cast pipeline and for the emitted row of the concrete run. -/
theorem claim_C9_counterexample :
    truncQ (heightF 2 (mkRat 1709 10)) = 170 ∧
    (mkRat 1709 10 : ℚ) = 1709 / 10 ∧
    ((appointmentsTable pats1 d1 sel1).headD default).height = 170 ∧
    d1.heightDraw 0 = mkRat 1709 10 := by
  refine ⟨by decide, by norm_num [Rat.mkRat_eq_div], by decide, by decide⟩

/-- C5 (amended): every emitted appointment timestamp lies between the
*month-truncated* enrollment start and the month-truncated enrollment end
plus the 0-5 day offset and the last clinic slot (17:45 = minute 1065).
The month truncation of `date_ranges(start.dt.truncate("1mo"), ...)` can
place an appointment up to a whole month *before* `start_date`, so the
spec's window `[start_date, end_date]` only holds in this truncated form. -/
theorem claim_C5_window_truncated (N : Nat) (ref : List RefRow) (pd : PatientDraws)
    (d : ApptDraws) (sel : List Nat)
    (hdelta : ∀ i, d.dayDelta i ≤ 5) (hslot : ∀ i, d.slot i ∈ hour_slots) :
    ∀ r ∈ appointmentsTable (patientsTable N ref pd) d sel,
      monthStart (monthOf (startDay d r.pid)) * 1440 ≤ r.date ∧
      r.date ≤ (monthStart (monthOf (endDay d r.pid)) + 5) * 1440 + 1065 := by
  intro r hr
  obtain ⟨i, j, m, hj, hm, hrow⟩ := mem_appointmentsPre (mem_appointmentsTable hr)
  rw [patientsTable_length] at hj
  subst hrow
  rw [apptMonths] at hm
  obtain ⟨h1, h2⟩ := mem_monthRangeIdx hm
  have hlo := monthStart_mono h1
  have hhi := monthStart_mono h2
  have hd := hdelta i
  have hs := hslot i
  rw [hour_slots, List.mem_range'_1] at hs
  simp only [mkApptRow]
  rw [patientsTable_getD_pid N ref pd j hj]
  constructor <;> omega

/-- C5 witness: the concrete run's retained appointment against the
month-truncated window. -/
theorem claim_C5_window_truncated_witness :
    monthStart (monthOf (startDay d1 ((appointmentsTable pats1 d1 sel1).headD default).pid))
        * 1440 ≤ ((appointmentsTable pats1 d1 sel1).headD default).date :=
  (claim_C5_window_truncated 1 ref1 pd1 d1 sel1 (fun _ => Nat.zero_le 5)
    (fun _ => show (36 : Nat) ∈ hour_slots by decide) _ (headD_mem _ (by decide))).1

/-- C5 counterexample: with enrollment starting 2015-01-20 (a legal
campaign date) and all perturbations at their smallest legal values, the
retained appointment of the concrete run falls on 2015-01-01 09:00 —
nineteen days before `start_date`, although the 0-5 day and time-of-day
offsets can only push candidates *later*.  So the claim's window
`[start_date, end_date]` (inclusive of those offsets) is violated. -/
theorem claim_C5_counterexample :
    ((appointmentsTable pats1 d1 sel1).headD default).date <
      startDay d1 ((appointmentsTable pats1 d1 sel1).headD default).pid * 1440 ∧
    (appointmentsTable pats1 d1 sel1).length ≠ 0 ∧
    d1.dayDelta 0 ≤ 5 ∧ d1.slot 0 ∈ hour_slots ∧
    startDay d1 0 ≤ D2020 ∧ endDay d1 0 ≤ D20201231 := by decide

/-- C3 (amended): the device id of an appointment row is the *per-patient*
device draw — drawn once per patient before the date explode (line 129
precedes lines 150-161) — so every two appointment rows of the same patient
carry the same device id, for every random stream. -/
theorem claim_C3_device_per_patient (N : Nat) (ref : List RefRow) (pd : PatientDraws)
    (d : ApptDraws) (sel : List Nat) :
    ∀ r1 ∈ appointmentsTable (patientsTable N ref pd) d sel,
      ∀ r2 ∈ appointmentsTable (patientsTable N ref pd) d sel,
        r1.gmId = d.gmDraw r1.pid ∧ (r1.pid = r2.pid → r1.gmId = r2.gmId) := by
  intro r1 h1 r2 h2
  obtain ⟨i1, j1, m1, hj1, _, e1⟩ := mem_appointmentsPre (mem_appointmentsTable h1)
  obtain ⟨i2, j2, m2, hj2, _, e2⟩ := mem_appointmentsPre (mem_appointmentsTable h2)
  rw [patientsTable_length] at hj1 hj2
  subst e1
  subst e2
  simp only [mkApptRow]
  rw [patientsTable_getD_pid N ref pd j1 hj1, patientsTable_getD_pid N ref pd j2 hj2]
  exact ⟨rfl, fun h => h ▸ rfl⟩

/-- C3 witness: in the two-patient run, patient 0's two retained visits
carry the same device id. -/
theorem claim_C3_device_per_patient_witness :
    ((appointmentsTable pats2 d2 sel2).headD default).gmId =
      ((appointmentsTable pats2 d2 sel2).getD 1 default).gmId :=
  ((claim_C3_device_per_patient 2 ref2 pd2 d2 sel2 _ (headD_mem _ (by decide))
    _ (getD_mem _ 1 (by decide))).2 (by decide))

/-- C3 counterexample: the emitted (patient, device) pairs of the
two-patient run are [(0,1), (0,1), (1,2)] — the device stream `j+1` is
consumed once per *patient*, not once per appointment: patient 0's two
visits share device 1 even though the draw at the second visit's row
position (`d2.gmDraw 1 = 2`) differs from the draw at the first
(`d2.gmDraw 0 = 1`).  No random stream can give one patient two devices. -/
theorem claim_C3_counterexample :
    ((appointmentsTable pats2 d2 sel2).map fun r => (r.pid, r.gmId)) =
      [(0, 1), (0, 1), (1, 2)] ∧
    d2.gmDraw 0 ≠ d2.gmDraw 1 := by decide

/-- C6 (amended): `.sample(fraction=0.9)` keeps a *fixed* number of rows —
exactly `thinnedCount n` of `n` — for every shuffled order its RNG can
produce; retention is uniform without replacement, not an independent
Bernoulli coin per row (under which the removed count would be random). -/
theorem claim_C6_thinning_fixed_count (rows : List ApptRow) (sel : List Nat)
    (hlen : sel.length = rows.length) (hlt : ∀ i ∈ sel, i < rows.length) :
    (sampleFrac09 sel rows).length = thinnedCount rows.length := by
  rw [sampleFrac09, filterMap_getElem_eq_map (fun i hi => hlt i (List.take_subset _ _ hi))]
  rw [List.length_map, List.length_take, hlen]
  rw [thinnedCount]
  omega

/-- C6 witness: four rows, identity shuffled order: exactly three retained. -/
theorem claim_C6_thinning_fixed_count_witness :
    (sampleFrac09 [0, 1, 2, 3] rowsFour).length = thinnedCount rowsFour.length :=
  claim_C6_thinning_fixed_count rowsFour [0, 1, 2, 3] (by decide) (by decide)

/-- C6 counterexample: whatever shuffled order the thinning RNG produces,
exactly 3 of the 4 rows are kept (three distinct orders shown here; the
amended theorem proves it for all orders), whereas the spec's independent
Bernoulli coin per row keeps all 4 rows when every coin lands "retain" —
an outcome of probability 0.9^4 > 0 that the code can never produce.  So
the removed count is a fixed fraction, not random. -/
theorem claim_C6_counterexample :
    (sampleFrac09 [0, 1, 2, 3] rowsFour).length = 3 ∧
    (sampleFrac09 [3, 2, 1, 0] rowsFour).length = 3 ∧
    (sampleFrac09 [1, 3, 0, 2] rowsFour).length = 3 ∧
    (bernoulliThin (fun _ => true) rowsFour).length = 4 ∧
    thinnedCount 4 = 3 ∧ rowsFour.length = 4 := by decide

/-- C7 (amended): a patient can lose *all* appointments to thinning; what
does hold is that any patient with more pre-thinning rows than the number
of removed rows (`n - thinnedCount n`, i.e. about 10% of the table) keeps
at least one appointment, for every shuffled order. -/
theorem claim_C7_patient_retention (rows : List ApptRow) (sel : List Nat) (p : Nat)
    (hnd : sel.Nodup) (hlt : ∀ i ∈ sel, i < rows.length)
    (hlen : sel.length = rows.length)
    (hcount : rows.length - thinnedCount rows.length <
      (rows.filter fun r => r.pid == p).length) :
    ∃ r ∈ sampleFrac09 sel rows, r.pid = p := by
  have hperm : sel.Perm (List.range rows.length) := by
    have hsub : sel ⊆ List.range rows.length := fun i hi => List.mem_range.mpr (hlt i hi)
    exact (hnd.subperm hsub).perm_of_length_le (by simp [hlen])
  have hmap : (sel.map fun i => rows.getD i default).Perm rows := by
    have := hperm.map fun i => rows.getD i default
    rwa [map_getD_range rows] at this
  have hcnt : (sel.map fun i => rows.getD i default).countP (fun r => r.pid == p)
      = rows.countP (fun r => r.pid == p) := hmap.countP_eq _
  have hsplit :
      ((sel.take (thinnedCount rows.length)).map fun i => rows.getD i default).countP
          (fun r => r.pid == p) +
        ((sel.drop (thinnedCount rows.length)).map fun i => rows.getD i default).countP
          (fun r => r.pid == p)
      = rows.countP (fun r => r.pid == p) := by
    rw [← List.countP_append, ← List.map_append, sel.take_append_drop]
    exact hcnt
  have hdrop : ((sel.drop (thinnedCount rows.length)).map fun i => rows.getD i default).countP
      (fun r => r.pid == p) ≤ rows.length - thinnedCount rows.length := by
    have hle := ((sel.drop (thinnedCount rows.length)).map
      fun i => rows.getD i default).countP_le_length (fun r => r.pid == p)
    rwa [List.length_map, List.length_drop, hlen] at hle
  have hfilt : rows.countP (fun r => r.pid == p) = (rows.filter fun r => r.pid == p).length :=
    List.countP_eq_length_filter _ _
  have hpos : 0 < ((sel.take (thinnedCount rows.length)).map fun i => rows.getD i default).countP
      (fun r => r.pid == p) := by omega
  have hret : sampleFrac09 sel rows
      = (sel.take (thinnedCount rows.length)).map fun i => rows.getD i default := by
    rw [sampleFrac09, filterMap_getElem_eq_map (fun i hi => hlt i (List.take_subset _ _ hi))]
  obtain ⟨r, hr, hq⟩ := List.countP_pos_iff.mp hpos
  exact ⟨r, hret ▸ hr, by simpa using hq⟩

/-- C7 witness: patient 0 owns nine of ten rows, only one row is removed,
so patient 0 keeps an appointment. -/
theorem claim_C7_patient_retention_witness :
    ∃ r ∈ sampleFrac09 (List.range 10) rowsC7, r.pid = 0 :=
  claim_C7_patient_retention rowsC7 (List.range 10) 0 (by decide) (by decide)
    (by decide) (by decide)

/-- C7 counterexample: patient 1's only appointment sits at shuffle
position 9 of 10; `.sample(fraction=0.9)` keeps positions 0-8, so patient 1
is left with zero appointment rows — the claim fails for this legal
random order. -/
theorem claim_C7_counterexample :
    ((sampleFrac09 (List.range 10) rowsC7).all fun r => r.pid == 0) = true ∧
    (rowsC7.any fun r => r.pid == 1) = true ∧
    (List.range 10).Nodup ∧ (List.range 10).length = rowsC7.length := by decide

/-- C4 (amended): every glycemia-stream reading of a patient with at least
two retained appointments lies, up to the jitter bound `J`, at 08:00 or
later of the day of `first_appointment + 24h` and at 20:00 or earlier of
the day of `last_appointment - 24h`.  Because line 268 truncates the range
timestamps to *calendar days* before rebuilding the 08:00/14:00/20:00
slots, a reading can precede `first+24h` (or exceed `last-24h`) by up to a
working day's worth of hours, not merely by jitter minutes. -/
theorem claim_C4_stream_window_day_granular (rows : List ApptRow) (N J : Nat)
    (sd : StreamDraws) (hj : ∀ i, (sd.jitter i).natAbs ≤ J) :
    ∀ r ∈ glycemiaStream rows N sd,
      2 ≤ (groupOf rows r.pid).length →
      (((minD ((groupOf rows r.pid).map (·.date)) + 1440) / 1440 * 1440 + 480 : Nat) : Int) - J
          ≤ r.date ∧
      r.date ≤
        (((maxD ((groupOf rows r.pid).map (·.date)) - 1440) / 1440 * 1440 + 1200 : Nat) : Int)
          + J := by
  intro r hr _
  obtain ⟨i, p, t, ht, hrow⟩ := mem_glycemiaStream hr
  subst hrow
  obtain ⟨td, hh, htd, hhmem, hteq⟩ := mem_streamSlots ht
  obtain ⟨h1, h2⟩ := mem_dayRange htd
  have hji := hj i
  simp only [mkGlyRow]
  rcases hhmem with rfl | rfl | rfl <;> constructor <;> omega

/-- C4 witness: the two-appointment fixture with zero jitter. -/
theorem claim_C4_stream_window_day_granular_witness :
    (((minD ((groupOf rowsC4 ((glycemiaStream rowsC4 1 sd0).headD default).pid).map (·.date))
        + 1440) / 1440 * 1440 + 480 : Nat) : Int) - 0
      ≤ ((glycemiaStream rowsC4 1 sd0).headD default).date :=
  ((claim_C4_stream_window_day_granular rowsC4 1 0 sd0 (fun _ => Nat.le_refl 0)
    _ (headD_mem _ (by decide))) (by decide)).1

/-- C4 counterexample: appointments at 17:00; the first emitted reading
(zero jitter) is the 08:00 slot of the day of `first+24h`, i.e. 540
minutes — nine hours, not "a few minutes" — before `first_appointment+24h`;
the patient has two retained appointments. -/
theorem claim_C4_counterexample :
    ((glycemiaStream rowsC4 1 sd0).headD default).date + 540 =
      ((minD ((groupOf rowsC4 0).map (·.date)) : Nat) : Int) + 1440 ∧
    (glycemiaStream rowsC4 1 sd0).length ≠ 0 ∧
    (groupOf rowsC4 0).length = 2 := by decide

/-- C1: the pipeline is *not* a deterministic function of the seed and the
reference input: `appointments.sample(fraction=0.9)` at line 221 passes no
seed, so polars draws a fresh OS seed each run.  With the seeded draws
fixed, two legal states of that unseeded RNG (two shuffled orders) yield
different appointment tables — their date columns already differ. -/
theorem claim_C1_unseeded_thinning_nondeterminism :
    appointmentsTable pats1 d1 [0, 1] ≠ appointmentsTable pats1 d1 [1, 0] := fun h =>
  absurd (congrArg (List.map (fun r => r.date)) h) (by decide)

end GenSim
